import Mathlib

/-!
Verification of the change-detection and diff-generation core of
`dream-three/baseline` (src/integrity.go).

The Go source is shallowly embedded: Go strings become Lean `String`
(byte counts read as character counts, which agree on the ASCII text the
program emits), parsed CSV tables become `List (List String)`, Go `error`
values become `Option String` (the error message, `none` = nil), and the
SHA-256 digest is an abstract parameter `hash : String → String` wherever
a function of the source calls it.  Every definition mirrors the control
flow of the named Go function; I/O performed by collaborators (file reads,
HTTP fetches, EXIF/OCR extraction) is presented as already-resolved values,
exactly as the functions under study receive them.
-/

set_option maxRecDepth 100000

/-- Constant `maxDiffChanges` of src/integrity.go line 30. -/
def maxDiffChanges : Nat := 10

/-- Constant `maxDiffChars` of src/integrity.go line 31. -/
def maxDiffChars : Nat := 500

/-- Constant `zeroHash` of src/integrity.go line 32: the 64-character
all-zero sentinel fingerprint. -/
def zeroHash : String :=
  "0000000000000000000000000000000000000000000000000000000000000000"

/-- Which counter a detail line increments (`addedCount`, `omittedCount`,
`modifiedCount` in `generateCSVDiff` / `generateTextDiff`). -/
inductive ChangeKind where
  | added
  | omitted
  | modified
deriving DecidableEq, Repr

/-- Concatenation of the pieces a `strings.Builder` receives, in order. -/
def strJoin : List String → String
  | [] => ""
  | x :: rest => x ++ strJoin rest

/-- `strings.Join(row, ",")` as used on CSV rows. -/
def joinComma : List String → String
  | [] => ""
  | [x] => x
  | x :: rest => x ++ "," ++ joinComma rest

/-- Go `unicode.IsSpace` restricted to the Latin-1 range, which is all the
whitespace `strings.TrimSpace` can meet in the program's ASCII reports:
space, tab, newline, vertical tab, form feed, carriage return, NEL, NBSP. -/
def goIsSpace (c : Char) : Bool :=
  c.toNat = 32 || c.toNat = 9 || c.toNat = 10 || c.toNat = 11 ||
  c.toNat = 12 || c.toNat = 13 || c.toNat = 133 || c.toNat = 160

/-- `strings.TrimSpace`: drop leading and trailing whitespace. -/
def trimSpace (s : String) : String :=
  String.mk (((s.toList.dropWhile goIsSpace).reverse.dropWhile goIsSpace).reverse)

/-- Helper for `splitLines`: accumulates the current line (reversed). -/
def splitLinesAux : List Char → List Char → List String
  | [], acc => [String.mk acc.reverse]
  | c :: rest, acc =>
    if c = '\n' then String.mk acc.reverse :: splitLinesAux rest []
    else splitLinesAux rest (c :: acc)

/-- `strings.Split(s, "\n")`: split on newlines, keeping empty pieces
(`splitLines "" = [""]`, a trailing newline yields a final `""`). -/
def splitLines (s : String) : List String :=
  splitLinesAux s.toList []

/-- The shared shape of the bounded diff loops of `generateCSVDiff`
(lines 356-393) and `generateTextDiff` (lines 422-442): walk the index
pairs in order while `addedCount+omittedCount+modifiedCount < maxChanges`,
let the per-index body emit at most one detail line, and thread the three
counters.  Returns (detail lines in order, addedCount, omittedCount,
modifiedCount). -/
def diffLoop {α : Type} (step : Nat → α → α → Option (ChangeKind × String)) :
    List (Nat × α × α) → Nat → Nat → Nat → List String × Nat × Nat × Nat
  | [], a, o, m => ([], a, o, m)
  | (i, x, y) :: rest, a, o, m =>
    if a + o + m < maxDiffChanges then
      match step i x y with
      | some (ChangeKind.added, line) =>
        let r := diffLoop step rest (a + 1) o m
        (line :: r.1, r.2)
      | some (ChangeKind.omitted, line) =>
        let r := diffLoop step rest a (o + 1) m
        (line :: r.1, r.2)
      | some (ChangeKind.modified, line) =>
        let r := diffLoop step rest a o (m + 1)
        (line :: r.1, r.2)
      | none => diffLoop step rest a o m
    else ([], a, o, m)

/-- The inner field loop of `generateCSVDiff` (lines 377-391): scan field
indices `j, j+1, ...` for `fuel` steps and stop (`break`) at the first
index where the positionally read fields (missing fields read as `""`)
differ, returning that index and both fields. -/
def firstFieldAux (localRow remoteRow : List String) : Nat → Nat → Option (Nat × String × String)
  | _, 0 => none
  | j, fuel + 1 =>
    let localField := localRow.getD j ""
    let remoteField := remoteRow.getD j ""
    if localField ≠ remoteField then some (j, localField, remoteField)
    else firstFieldAux localRow remoteRow (j + 1) fuel

/-- First differing field of two rows, scanning `j = 0` to
`max (len localRow) (len remoteRow) - 1` as the Go inner loop does. -/
def firstFieldDiff (localRow remoteRow : List String) : Option (Nat × String × String) :=
  firstFieldAux localRow remoteRow 0 (max localRow.length remoteRow.length)

/-- One iteration of the row loop of `generateCSVDiff` (lines 356-393):
an empty local row records an Added line, an empty remote row an Omitted
line, otherwise the first differing field (if any) records one Modified
line.  Row and column numbers are reported 1-based. -/
def csvRowStep (i : Nat) (localRow remoteRow : List String) : Option (ChangeKind × String) :=
  if localRow.length = 0 then
    some (ChangeKind.added, "Added row " ++ toString (i + 1) ++ ": " ++ joinComma remoteRow ++ "\n")
  else if remoteRow.length = 0 then
    some (ChangeKind.omitted, "Omitted row " ++ toString (i + 1) ++ ": " ++ joinComma localRow ++ "\n")
  else
    match firstFieldDiff localRow remoteRow with
    | some (j, localField, remoteField) =>
      some (ChangeKind.modified,
        "Modified field in row " ++ toString (i + 1) ++ ", col " ++ toString (j + 1) ++
        ": '" ++ localField ++ "' → '" ++ remoteField ++ "'\n")
    | none => none

/-- The index pairs the row loop reads: `i` from `0` to
`max (len localCSV) (len remoteCSV) - 1`, with a missing row read as the
empty row. -/
def csvPairs (localCSV remoteCSV : List (List String)) : List (Nat × List String × List String) :=
  (List.range (max localCSV.length remoteCSV.length)).map
    fun i => (i, localCSV.getD i [], remoteCSV.getD i [])

/-- Detail lines and counters of `generateCSVDiff` on parsed tables. -/
def csvChangeLines (localCSV remoteCSV : List (List String)) : List String × Nat × Nat × Nat :=
  diffLoop csvRowStep (csvPairs localCSV remoteCSV) 0 0 0

/-- `generateCSVDiff` (lines 335-400) after both tables parsed: the header,
the detail lines, and the fallback line when no change was recorded.
(On a parse failure the Go function instead returns an error string and
never runs this comparison.) -/
def generateCSVDiff (localCSV remoteCSV : List (List String)) (ts filename : String) : String :=
  let r := csvChangeLines localCSV remoteCSV
  "[" ++ ts ++ "] Diff for " ++ filename ++ "\n" ++ strJoin r.1 ++
    (if r.2.1 + r.2.2.1 + r.2.2.2 = 0 then "No specific changes identified (full content mismatch)\n" else "")

/-- One iteration of the line loop of `generateTextDiff` (lines 422-442):
both sides are whitespace-trimmed; an empty local vs nonempty remote
records Added, nonempty local vs empty remote records Omitted, two unequal
nonempty (or any unequal) trimmed lines record Modified, and two equal
trimmed lines (in particular two whitespace-only lines) record nothing. -/
def textLineStep (sectionLabel : String) (i : Nat) (localRaw remoteRaw : String) :
    Option (ChangeKind × String) :=
  let localLine := trimSpace localRaw
  let remoteLine := trimSpace remoteRaw
  if localLine = "" ∧ remoteLine ≠ "" then
    some (ChangeKind.added, "Added " ++ sectionLabel ++ " line " ++ toString (i + 1) ++ ": " ++ remoteLine ++ "\n")
  else if remoteLine = "" ∧ localLine ≠ "" then
    some (ChangeKind.omitted, "Omitted " ++ sectionLabel ++ " line " ++ toString (i + 1) ++ ": " ++ localLine ++ "\n")
  else if localLine ≠ remoteLine then
    some (ChangeKind.modified, "Modified " ++ sectionLabel ++ " line " ++ toString (i + 1) ++ ": '" ++ localLine ++ "' → '" ++ remoteLine ++ "'\n")
  else none

/-- The index pairs the line loop reads: `i` from `0` to
`max (len localLines) (len remoteLines) - 1`, a missing line read as `""`. -/
def textPairs (localText remoteText : String) : List (Nat × String × String) :=
  let localLines := splitLines localText
  let remoteLines := splitLines remoteText
  (List.range (max localLines.length remoteLines.length)).map
    fun i => (i, localLines.getD i "", remoteLines.getD i "")

/-- Detail lines and counters of `generateTextDiff`. -/
def textChangeLines (localText remoteText sectionLabel : String) : List String × Nat × Nat × Nat :=
  diffLoop (textLineStep sectionLabel) (textPairs localText remoteText) 0 0 0

/-- `generateTextDiff` (lines 408-449): the detail lines followed by the
labelled fallback line when no change was recorded (no header of its own). -/
def generateTextDiff (localText remoteText sectionLabel : String) : String :=
  let r := textChangeLines localText remoteText sectionLabel
  strJoin r.1 ++
    (if r.2.1 + r.2.2.1 + r.2.2.2 = 0 then "No " ++ sectionLabel ++ " changes identified\n" else "")

/-- `generatePDFDiff` (lines 402-406).  `hash` stands for the SHA-256 hex
digest (`fileHash` of the local file's bytes, `sha256Hex` of the fetched
bytes); the report is the header plus the single fingerprint line. -/
def generatePDFDiff (hash : String → String) (localBlob remoteData ts filename : String) : String :=
  "[" ++ ts ++ "] PDF Diff for " ++ filename ++ "\n" ++
  "File Hash: Local=" ++ hash localBlob ++ ", Remote=" ++ hash remoteData ++ "\n"

/-- The EXIF part of `generateImageDiff` (lines 459-476): the error lines,
then the branch on the nil-ness of both error values. -/
def exifSection (localExif remoteExif : String) (localExifErr remoteExifErr : Option String) : String :=
  (match localExifErr with
    | some e => "Local EXIF Error: " ++ e ++ "\n"
    | none => "") ++
  (match remoteExifErr with
    | some e => "Remote EXIF Error: " ++ e ++ "\n"
    | none => "") ++
  (match localExifErr, remoteExifErr with
    | none, none =>
      if localExif ≠ remoteExif then "EXIF Changed:\n" ++ generateTextDiff localExif remoteExif "EXIF"
      else "EXIF Unchanged\n"
    | none, some _ =>
      "EXIF: Local present, remote extraction failed\nLocal EXIF:\n" ++ localExif ++ "\n"
    | some _, none =>
      "EXIF: Remote added, local extraction failed\nRemote EXIF:\n" ++ remoteExif ++ "\n"
    | some _, some _ => "")

/-- The OCR part of `generateImageDiff` (lines 478-495), same 4-way branch
with the OCR labels. -/
def ocrSection (localOcr remoteOcr : String) (localOcrErr remoteOcrErr : Option String) : String :=
  (match localOcrErr with
    | some e => "Local OCR Error: " ++ e ++ "\n"
    | none => "") ++
  (match remoteOcrErr with
    | some e => "Remote OCR Error: " ++ e ++ "\n"
    | none => "") ++
  (match localOcrErr, remoteOcrErr with
    | none, none =>
      if localOcr ≠ remoteOcr then "OCR Text Changed:\n" ++ generateTextDiff localOcr remoteOcr "OCR"
      else "OCR Text Unchanged\n"
    | none, some _ =>
      "OCR: Local present, remote extraction failed\nLocal OCR Text:\n" ++ localOcr ++ "\n"
    | some _, none =>
      "OCR: Remote added, local extraction failed\nRemote OCR Text:\n" ++ remoteOcr ++ "\n"
    | some _, some _ => "")

/-- `generateImageDiff` (lines 451-498): header, fingerprint line, EXIF
section, OCR section.  `localHash` and `remoteHash` stand for the values
`fileHash(localPath)` (its error ignored by the source) and
`sha256Hex(remoteData)`; the extraction results arrive as values plus
`Option String` errors, as the Go function receives them. -/
def generateImageDiff (localHash remoteHash localExif remoteExif localOcr remoteOcr : String)
    (localExifErr remoteExifErr localOcrErr remoteOcrErr : Option String)
    (ts filename : String) : String :=
  "[" ++ ts ++ "] Image Diff for " ++ filename ++ "\n" ++
  ("File Hash: Local=" ++ localHash ++ ", Remote=" ++ remoteHash ++ "\n" ++
  (exifSection localExif remoteExif localExifErr remoteExifErr ++
   ocrSection localOcr remoteOcr localOcrErr remoteOcrErr))

/-- The UTF-8 encoding of one character, as the byte values Go strings
store: 1 byte below U+0080, 2 below U+0800, 3 below U+10000, else 4. -/
def utf8EncodeChar (c : Char) : List Nat :=
  let n := c.toNat
  if n < 128 then [n]
  else if n < 2048 then [192 + n / 64, 128 + n % 64]
  else if n < 65536 then [224 + n / 4096, 128 + (n / 64) % 64, 128 + n % 64]
  else [240 + n / 262144, 128 + (n / 4096) % 64, 128 + (n / 64) % 64, 128 + n % 64]

/-- The byte sequence of a Go string: Go `len` and slicing count these
bytes, not characters — the program's Modified lines contain the 3-byte
arrow, so the two counts differ on real reports. -/
def utf8Bytes (s : String) : List Nat :=
  (s.toList.map utf8EncodeChar).flatten

/-- Constant `baseURL` of src/integrity.go line 26. -/
def baseURL : String :=
  "https://raw.githubusercontent.com/dream-three/baseline/refs/heads/main/"

/-- The truncation applied in `runCycle` (lines 303-305) to the diff text
of the hash-mismatch path before it joins `shiftLog`: `len(diffText)` and
`diffText[:maxDiffChars]` work on UTF-8 bytes, so a text of more than
`maxDiffChars` bytes is cut to its first `maxDiffChars` bytes (possibly
splitting a multi-byte character) and the marker's bytes are appended.
The "Remote unavailable" text of line 268 does not pass through here. -/
def truncateReport (diffText : String) : List Nat :=
  if (utf8Bytes diffText).length > maxDiffChars then
    (utf8Bytes diffText).take maxDiffChars ++ utf8Bytes "... (truncated)"
  else utf8Bytes diffText

/-- The report text built at line 268 for an item whose remote answered a
non-success HTTP status; `rawURL` is `baseURL ++ url.PathEscape(filename)
++ "?t=" ++ randomTimestamp()` (line 230), so the filename enters twice. -/
def unavailableReport (ts originalFilename : String) (status : Nat) (rawURL : String) : String :=
  "[" ++ ts ++ "] " ++ originalFilename ++ ": Remote unavailable (HTTP " ++
  toString status ++ ") - potential deletion or rename (URL: " ++ rawURL ++ ")\n"

/-- The bytes `runCycle` hands to `shiftLog` (and so to the log sink,
lines 318-327) on the non-success-status path: line 269 appends the
line-268 text directly, with no truncation between. -/
def unavailableLogEntry (ts originalFilename : String) (status : Nat) (rawURL : String) : List Nat :=
  utf8Bytes (unavailableReport ts originalFilename status rawURL)

/-- What `runCycle` observes of one monitored item's remote fetch
(lines 240-279): the request construction and the HTTP round trip can
fail, a response carries a status code, and reading a 200 body can fail
(`none`) or yield the body bytes (`some body`). -/
inductive ItemFetch where
  | requestError
  | doError
  | httpResponse (status : Nat) (bodyRead : Option String)

/-- What one item writes to `unifiedBuilder` in `runCycle`: every failure
path (`requestError`, `doError`, non-200 status, body read failure, local
hash failure) runs `continue`, which skips the
`unifiedBuilder.WriteString(rawHash)` at line 315, so only an item that
reaches the diff branch contributes — and it contributes `sha256Hex(body)`.
`localHash = none` models `fileHash(localPath)` failing at line 282. -/
def writeContribution (hash : String → String) (fetch : ItemFetch) (localHash : Option String) :
    Option String :=
  match fetch with
  | ItemFetch.requestError => none
  | ItemFetch.doError => none
  | ItemFetch.httpResponse status bodyRead =>
    if status ≠ 200 then none
    else
      match bodyRead with
      | none => none
      | some body =>
        match localHash with
        | none => none
        | some _ => some (hash body)

/-- The string `unifiedBuilder` holds at the end of `runCycle` (the input
of the final `sha256Hex` at line 330), for the items in their sorted order. -/
def cycleConcat (hash : String → String) (items : List (ItemFetch × Option String)) : String :=
  strJoin (items.map fun it => (writeContribution hash it.1 it.2).getD "")

/-- Modelled from the spec, for comparison with `cycleConcat`: the claim's
per-item fingerprint — the fingerprint of the fetched body, with the
all-zero sentinel for an item whose fetch failed or returned a non-success
status (or whose body could not be read). -/
def specItemFingerprint (hash : String → String) (fetch : ItemFetch) : String :=
  match fetch with
  | ItemFetch.requestError => zeroHash
  | ItemFetch.doError => zeroHash
  | ItemFetch.httpResponse status bodyRead =>
    if status ≠ 200 then zeroHash
    else
      match bodyRead with
      | none => zeroHash
      | some body => hash body

/-- Modelled from the spec, for comparison with `cycleConcat`: the
concatenation of the per-item fingerprints of every monitored item. -/
def specCycleConcat (hash : String → String) (items : List (ItemFetch × Option String)) : String :=
  strJoin (items.map fun it => specItemFingerprint hash it.1)

/-- `sub` occurs contiguously inside `s`. -/
def strContains (sub s : String) : Prop :=
  List.IsInfix sub.toList s.toList

instance (sub s : String) : Decidable (strContains sub s) :=
  inferInstanceAs (Decidable (List.IsInfix sub.toList s.toList))

/-! ## Helper lemmas -/

theorem strToList_append (a b : String) : (a ++ b).toList = a.toList ++ b.toList := by
  cases a; cases b; rfl

theorem strOfToList_empty (a : String) (h : a.toList = []) : a = "" := by
  cases a with
  | mk l =>
    simp only [String.toList] at h
    subst h
    rfl

theorem strAppend_ne_left (a b : String) (h : a ≠ "") : a ++ b ≠ "" := by
  intro hc
  apply h
  have h2 := congrArg String.toList hc
  rw [strToList_append] at h2
  have h3 : a.toList = [] := (List.append_eq_nil.mp h2).1
  exact strOfToList_empty a h3

theorem strAppend_ne_right (a b : String) (h : b ≠ "") : a ++ b ≠ "" := by
  intro hc
  apply h
  have h2 := congrArg String.toList hc
  rw [strToList_append] at h2
  have h3 : b.toList = [] := (List.append_eq_nil.mp h2).2
  exact strOfToList_empty b h3

theorem strContains_self (s : String) : strContains s s :=
  ⟨[], [], by simp⟩

theorem strContains_right (sub s t : String) (h : strContains sub s) :
    strContains sub (t ++ s) := by
  obtain ⟨p, q, hpq⟩ := h
  exact ⟨t.toList ++ p, q, by rw [strToList_append, ← hpq]; simp⟩

theorem strContains_left (sub s t : String) (h : strContains sub s) :
    strContains sub (s ++ t) := by
  obtain ⟨p, q, hpq⟩ := h
  exact ⟨p, q ++ t.toList, by rw [strToList_append, ← hpq]; simp⟩

theorem strLength_mk (l : List Char) : (String.mk l).length = l.length := rfl

theorem strLength_append (a b : String) : (a ++ b).length = a.length + b.length := by
  cases a with
  | mk la =>
    cases b with
    | mk lb =>
      show (la ++ lb).length = la.length + lb.length
      exact List.length_append la lb

theorem diffLoop_stop {α : Type} (step : Nat → α → α → Option (ChangeKind × String))
    (pairs : List (Nat × α × α)) (a o m : Nat) (h : ¬ a + o + m < maxDiffChanges) :
    diffLoop step pairs a o m = ([], a, o, m) := by
  cases pairs with
  | nil => rfl
  | cons p rest =>
    obtain ⟨i, x, y⟩ := p
    simp only [diffLoop, if_neg h]

theorem diffLoop_length_le {α : Type} (step : Nat → α → α → Option (ChangeKind × String))
    (pairs : List (Nat × α × α)) :
    ∀ a o m : Nat, a + o + m ≤ maxDiffChanges →
      (diffLoop step pairs a o m).1.length + (a + o + m) ≤ maxDiffChanges := by
  induction pairs with
  | nil => intro a o m h; simpa [diffLoop] using h
  | cons p rest ih =>
    intro a o m h
    obtain ⟨i, x, y⟩ := p
    by_cases hlt : a + o + m < maxDiffChanges
    · simp only [diffLoop, if_pos hlt]
      cases hs : step i x y with
      | none => exact ih a o m h
      | some kl =>
        obtain ⟨k, line⟩ := kl
        cases k with
        | added =>
          have h2 := ih (a + 1) o m (by omega)
          simp only [List.length_cons]
          omega
        | omitted =>
          have h2 := ih a (o + 1) m (by omega)
          simp only [List.length_cons]
          omega
        | modified =>
          have h2 := ih a o (m + 1) (by omega)
          simp only [List.length_cons]
          omega
    · rw [diffLoop_stop _ _ _ _ _ hlt]
      simpa using h

theorem diffLoop_of_all_none {α : Type} (step : Nat → α → α → Option (ChangeKind × String))
    (pairs : List (Nat × α × α)) (a o m : Nat)
    (h : ∀ p ∈ pairs, step p.1 p.2.1 p.2.2 = none) :
    diffLoop step pairs a o m = ([], a, o, m) := by
  induction pairs with
  | nil => rfl
  | cons p rest ih =>
    obtain ⟨i, x, y⟩ := p
    by_cases hlt : a + o + m < maxDiffChanges
    · have hstep : step i x y = none := h (i, x, y) (List.mem_cons_self _ _)
      simp only [diffLoop, if_pos hlt, hstep]
      exact ih fun q hq => h q (List.mem_cons_of_mem _ hq)
    · exact diffLoop_stop _ _ _ _ _ hlt

theorem firstFieldAux_self (r : List String) :
    ∀ fuel j : Nat, firstFieldAux r r j fuel = none := by
  intro fuel
  induction fuel with
  | zero => intro j; rfl
  | succ n ih =>
    intro j
    simp only [firstFieldAux, ne_eq, not_true_eq_false, if_false, ih]

theorem csvRowStep_self (i : Nat) (r : List String) (h : r ≠ []) :
    csvRowStep i r r = none := by
  have hl : ¬ r.length = 0 := by
    intro hc
    exact h (List.length_eq_zero.mp hc)
  simp only [csvRowStep, if_neg hl, firstFieldDiff, firstFieldAux_self]

theorem textLineStep_self (lbl : String) (i : Nat) (l : String) :
    textLineStep lbl i l l = none := by
  simp only [textLineStep]
  by_cases h : trimSpace l = "" <;> simp [h]

theorem strAppend_empty (a : String) : a ++ "" = a := by
  cases a with
  | mk l =>
    show String.mk (l ++ []) = String.mk l
    rw [List.append_nil]

theorem firstFieldAux_first (localRow remoteRow : List String) :
    ∀ (fuel j0 j : Nat), j0 ≤ j → j < j0 + fuel →
      (∀ k, j0 ≤ k → k < j → localRow.getD k "" = remoteRow.getD k "") →
      localRow.getD j "" ≠ remoteRow.getD j "" →
      firstFieldAux localRow remoteRow j0 fuel =
        some (j, localRow.getD j "", remoteRow.getD j "") := by
  intro fuel
  induction fuel with
  | zero => intro j0 j h1 h2 _ _; omega
  | succ n ih =>
    intro j0 j h1 h2 hagree hdiff
    by_cases heq : j0 = j
    · subst heq
      simp only [firstFieldAux, ne_eq, ite_not]
      rw [if_neg hdiff]
    · have hlt : j0 < j := lt_of_le_of_ne h1 heq
      have heqf : localRow.getD j0 "" = remoteRow.getD j0 "" :=
        hagree j0 (le_refl j0) hlt
      simp only [firstFieldAux, ne_eq, heqf, not_true_eq_false, if_false]
      exact ih (j0 + 1) j (by omega) (by omega)
        (fun k hk1 hk2 => hagree k (by omega) hk2) hdiff

/-! ## The claims -/

/-- C4: for every pair of input tables and every pair of input texts, the
number of Added, Omitted and Modified detail lines in the `generateCSVDiff`
and `generateTextDiff` reports never exceeds 10: the loops stop emitting
once `addedCount + omittedCount + modifiedCount` reaches `maxDiffChanges`. -/
theorem C4_cap_invariant (localCSV remoteCSV : List (List String))
    (localText remoteText sectionLabel : String) :
    (csvChangeLines localCSV remoteCSV).1.length ≤ 10 ∧
    (textChangeLines localText remoteText sectionLabel).1.length ≤ 10 := by
  constructor
  · have h := diffLoop_length_le csvRowStep (csvPairs localCSV remoteCSV) 0 0 0
      (by simp [maxDiffChanges])
    simpa [csvChangeLines, maxDiffChanges] using h
  · have h := diffLoop_length_le (textLineStep sectionLabel)
      (textPairs localText remoteText) 0 0 0 (by simp [maxDiffChanges])
    simpa [textChangeLines, maxDiffChanges] using h

/-- C5 counterexample: diffing the table whose single row has zero fields
against itself does not yield the fallback line — the empty row is taken
for a missing row and an Added line is emitted, so RowDiffer is not
reflexive on every table. -/
theorem C5_counterexample :
    csvChangeLines [[]] [[]] = (["Added row 1: \n"], 1, 0, 0) ∧
    generateCSVDiff [[]] [[]] "t" "f" = "[t] Diff for f\nAdded row 1: \n" := by
  decide

/-- C5 amended: RowDiffer is reflexive on every table whose rows all have
at least one field (every table the CSV parser can produce), and LineDiffer
is reflexive on every text: the self-diff report's only content line is the
fallback "no changes identified" line. -/
theorem C5_reflexive_amended (T : List (List String)) (s ts fn lbl : String)
    (hrows : ∀ row ∈ T, row ≠ []) :
    generateCSVDiff T T ts fn =
      "[" ++ ts ++ "] Diff for " ++ fn ++ "\n" ++
        "No specific changes identified (full content mismatch)\n" ∧
    generateTextDiff s s lbl = "No " ++ lbl ++ " changes identified\n" := by
  constructor
  · have hall : ∀ p ∈ csvPairs T T, csvRowStep p.1 p.2.1 p.2.2 = none := by
      intro p hp
      simp only [csvPairs, Nat.max_self, List.mem_map, List.mem_range] at hp
      obtain ⟨i, hi, rfl⟩ := hp
      have hmem : T.getD i [] ∈ T := by
        rw [List.getD_eq_getElem T [] hi]
        exact List.getElem_mem hi
      exact csvRowStep_self i _ (hrows _ hmem)
    have hc : csvChangeLines T T = ([], 0, 0, 0) :=
      diffLoop_of_all_none _ _ 0 0 0 hall
    simp only [generateCSVDiff, hc, strJoin, strAppend_empty]
    rfl
  · have hall : ∀ p ∈ textPairs s s, textLineStep lbl p.1 p.2.1 p.2.2 = none := by
      intro p hp
      simp only [textPairs, Nat.max_self, List.mem_map, List.mem_range] at hp
      obtain ⟨i, hi, rfl⟩ := hp
      exact textLineStep_self lbl i _
    have hc : textChangeLines s s lbl = ([], 0, 0, 0) :=
      diffLoop_of_all_none _ _ 0 0 0 hall
    simp only [generateTextDiff, hc, strJoin]
    rfl

/-- C5 amended witness: the amended reflexivity at a concrete table and
text. -/
theorem C5_reflexive_amended_witness :
    generateCSVDiff [["a"]] [["a"]] "t" "f" =
      "[t] Diff for f\nNo specific changes identified (full content mismatch)\n" ∧
    generateTextDiff "x" "x" "L" = "No L changes identified\n" := by
  have h := C5_reflexive_amended [["a"]] "x" "t" "f" "L" (by decide)
  exact ⟨h.1.trans (by decide), h.2.trans (by decide)⟩

/-- C6: for every pair of rows compared positionally, both non-empty, if
the fields at index `j` differ (missing fields read as `""`) and all fields
before `j` agree, then the row contributes exactly one Modified line,
reporting the 1-based row `i+1` and column `j+1` and both field values. -/
theorem C6_first_field_modified (i j : Nat) (localRow remoteRow : List String)
    (hl : localRow ≠ []) (hr : remoteRow ≠ [])
    (hdiff : localRow.getD j "" ≠ remoteRow.getD j "")
    (hfirst : ∀ k, k < j → localRow.getD k "" = remoteRow.getD k "") :
    csvRowStep i localRow remoteRow =
      some (ChangeKind.modified,
        "Modified field in row " ++ toString (i + 1) ++ ", col " ++ toString (j + 1) ++
        ": '" ++ localRow.getD j "" ++ "' → '" ++ remoteRow.getD j "" ++ "'\n") := by
  have hjlt : j < max localRow.length remoteRow.length := by
    by_contra hc
    push_neg at hc
    have h1 : localRow.getD j "" = "" :=
      List.getD_eq_default _ _ (le_trans (le_max_left _ _) hc)
    have h2 : remoteRow.getD j "" = "" :=
      List.getD_eq_default _ _ (le_trans (le_max_right _ _) hc)
    exact hdiff (h1.trans h2.symm)
  have hfa := firstFieldAux_first localRow remoteRow
    (max localRow.length remoteRow.length) 0 j (Nat.zero_le j) (by omega)
    (fun k _ hk2 => hfirst k hk2) hdiff
  have hnl : ¬ localRow.length = 0 := fun hc => hl (List.length_eq_zero.mp hc)
  have hnr : ¬ remoteRow.length = 0 := fun hc => hr (List.length_eq_zero.mp hc)
  simp only [csvRowStep, if_neg hnl, if_neg hnr, firstFieldDiff, hfa]

/-- C6 witness: the first differing field of `["a","b","c"]` and
`["a","x","y"]` is at column 2 and yields the single Modified line. -/
theorem C6_first_field_modified_witness :
    csvRowStep 0 ["a", "b", "c"] ["a", "x", "y"] =
      some (ChangeKind.modified, "Modified field in row 1, col 2: 'b' → 'x'\n") := by
  have h := C6_first_field_modified 0 1 ["a", "b", "c"] ["a", "x", "y"]
    (by decide) (by decide) (by decide) (by decide)
  exact h.trans (by decide)

/-- C7: on local table `[["a","b"],["c","d"]]` and remote table
`[["a","x"],["c","d"]]` the RowDiffer report contains exactly one change
line, `Modified field in row 1, col 2: 'b' → 'x'`. -/
theorem C7_concrete_modified_line :
    csvChangeLines [["a", "b"], ["c", "d"]] [["a", "x"], ["c", "d"]] =
      (["Modified field in row 1, col 2: 'b' → 'x'\n"], 0, 0, 1) ∧
    generateCSVDiff [["a", "b"], ["c", "d"]] [["a", "x"], ["c", "d"]] "t" "f" =
      "[t] Diff for f\nModified field in row 1, col 2: 'b' → 'x'\n" := by
  decide

/-- C9: at a line index where both the local and the remote line trim to
the empty string, `generateTextDiff` records no Added, Omitted or Modified
line — the iteration emits nothing and leaves the loop state unchanged,
even when the untrimmed lines differ. -/
theorem C9_whitespace_invisible (lbl : String) (i : Nat) (localRaw remoteRaw : String)
    (rest : List (Nat × String × String)) (a o m : Nat)
    (hl : trimSpace localRaw = "") (hr : trimSpace remoteRaw = "") :
    textLineStep lbl i localRaw remoteRaw = none ∧
    diffLoop (textLineStep lbl) ((i, localRaw, remoteRaw) :: rest) a o m =
      diffLoop (textLineStep lbl) rest a o m := by
  have hstep : textLineStep lbl i localRaw remoteRaw = none := by
    simp [textLineStep, hl, hr]
  refine ⟨hstep, ?_⟩
  by_cases hlt : a + o + m < maxDiffChanges
  · simp only [diffLoop, if_pos hlt, hstep]
  · rw [diffLoop_stop _ _ _ _ _ hlt, diffLoop_stop _ _ _ _ _ hlt]

/-- C9 witness: the whitespace-only lines `"  "` and tab-tab differ as raw
strings yet record nothing. -/
theorem C9_whitespace_invisible_witness :
    ("  " : String) ≠ "\t\t" ∧ textLineStep "OCR" 0 "  " "\t\t" = none := by
  refine ⟨by decide, ?_⟩
  exact (C9_whitespace_invisible "OCR" 0 "  " "\t\t" [] 0 0 0 (by decide) (by decide)).1

/-- C10: a zero-field row present in one table at an index where the other
table has a non-empty row is classified like a missing row: zero-field
local row → Added line rendering the remote row; zero-field remote row →
Omitted line rendering the local row.  The classification tests the field
count, not whether the index lies within the table. -/
theorem C10_empty_row_classification (localCSV remoteCSV : List (List String)) (i : Nat) :
    (i < localCSV.length → localCSV.getD i [] = [] → remoteCSV.getD i [] ≠ [] →
      csvRowStep i (localCSV.getD i []) (remoteCSV.getD i []) =
        some (ChangeKind.added,
          "Added row " ++ toString (i + 1) ++ ": " ++ joinComma (remoteCSV.getD i []) ++ "\n")) ∧
    (i < remoteCSV.length → remoteCSV.getD i [] = [] → localCSV.getD i [] ≠ [] →
      csvRowStep i (localCSV.getD i []) (remoteCSV.getD i []) =
        some (ChangeKind.omitted,
          "Omitted row " ++ toString (i + 1) ++ ": " ++ joinComma (localCSV.getD i []) ++ "\n")) := by
  constructor
  · intro _ hl _
    rw [hl]
    rfl
  · intro _ hr hl
    have hnl : ¬ (localCSV.getD i []).length = 0 :=
      fun hc => hl (List.length_eq_zero.mp hc)
    rw [hr]
    simp only [csvRowStep, if_neg hnl, List.length_nil]
    rfl

/-- C10 witness: the classification at concrete tables, in both
directions. -/
theorem C10_empty_row_classification_witness :
    csvRowStep 0 [] ["a"] = some (ChangeKind.added, "Added row 1: a\n") ∧
    csvRowStep 0 ["a"] [] = some (ChangeKind.omitted, "Omitted row 1: a\n") := by
  constructor
  · have h := (C10_empty_row_classification [[]] [["a"]] 0).1
      (by decide) (by decide) (by decide)
    exact h.trans (by decide)
  · have h := (C10_empty_row_classification [["a"]] [[]] 0).2
      (by decide) (by decide) (by decide)
    exact h.trans (by decide)

/-- C2 counterexample: a 501-byte diff text leaves truncation with 515
bytes (500 kept plus the 15-byte marker), so a report handed to the log
sink can exceed 500 characters. -/
theorem C2_counterexample :
    ¬ (truncateReport (String.mk (List.replicate 501 'a'))).length ≤ 500 := by
  decide

/-- C2 amended: only the hash-mismatch path bounds its reports, and it
counts bytes: a diff text of at most 500 UTF-8 bytes passes to the log
sink unchanged, a longer one is cut to its first 500 bytes and carries the
marker `... (truncated)` as byte-suffix, for exactly 515 bytes — so every
mismatch-path report is at most 515 bytes.  The "Remote unavailable"
report of line 268 reaches the log sink with no truncation at all and is
unbounded: already at a 200-character filename it exceeds 515 bytes. -/
theorem C2_truncation_amended (diffText : String) :
    (truncateReport diffText).length ≤ maxDiffChars + 15 ∧
    ((utf8Bytes diffText).length ≤ maxDiffChars → truncateReport diffText = utf8Bytes diffText) ∧
    (maxDiffChars < (utf8Bytes diffText).length →
      (truncateReport diffText).length = maxDiffChars + 15 ∧
      List.IsSuffix (utf8Bytes "... (truncated)") (truncateReport diffText)) ∧
    maxDiffChars + 15 <
      (unavailableLogEntry "Jan 01, 2026 - 01:00AM" (String.mk (List.replicate 200 'a')) 404
        (baseURL ++ String.mk (List.replicate 200 'a') ++ "?t=0")).length := by
  have hub : maxDiffChars + 15 <
      (unavailableLogEntry "Jan 01, 2026 - 01:00AM" (String.mk (List.replicate 200 'a')) 404
        (baseURL ++ String.mk (List.replicate 200 'a') ++ "?t=0")).length := by
    decide
  by_cases h : (utf8Bytes diffText).length > maxDiffChars
  · have htr : truncateReport diffText =
        (utf8Bytes diffText).take maxDiffChars ++ utf8Bytes "... (truncated)" := by
      simp only [truncateReport, if_pos h]
    have hmarker : (utf8Bytes "... (truncated)").length = 15 := rfl
    have hlen : (truncateReport diffText).length = maxDiffChars + 15 := by
      rw [htr, List.length_append, List.length_take, hmarker]
      omega
    exact ⟨le_of_eq hlen, fun hle => absurd h (not_lt.mpr hle),
      fun _ => ⟨hlen, ⟨(utf8Bytes diffText).take maxDiffChars, htr.symm⟩⟩, hub⟩
  · have htr : truncateReport diffText = utf8Bytes diffText := by
      simp only [truncateReport, if_neg h]
    have hle : (utf8Bytes diffText).length ≤ maxDiffChars := Nat.le_of_not_lt h
    exact ⟨by rw [htr]; omega, fun _ => htr, fun hgt => absurd hgt h, hub⟩

/-- C2 amended witness: the amended bound at the 501-byte report. -/
theorem C2_truncation_amended_witness :
    maxDiffChars < (utf8Bytes (String.mk (List.replicate 501 'a'))).length ∧
    (truncateReport (String.mk (List.replicate 501 'a'))).length = maxDiffChars + 15 := by
  have hgt : maxDiffChars < (utf8Bytes (String.mk (List.replicate 501 'a'))).length := by decide
  exact ⟨hgt, ((C2_truncation_amended (String.mk (List.replicate 501 'a'))).2.2.1 hgt).1⟩

/-- C8: the OpaqueDiffer report on two distinct blobs contains both full
fingerprints, and it has no content-level detail: the report is a function
of the two fingerprints alone, unchanged under any replacement of the
blobs that preserves their fingerprints, regardless of blob size or
contents. -/
theorem C8_opaque_fingerprints (hash : String → String)
    (localBlob remoteData localBlob2 remoteData2 ts filename : String)
    (hne : localBlob ≠ remoteData) :
    strContains (hash localBlob) (generatePDFDiff hash localBlob remoteData ts filename) ∧
    strContains (hash remoteData) (generatePDFDiff hash localBlob remoteData ts filename) ∧
    (hash localBlob = hash localBlob2 → hash remoteData = hash remoteData2 →
      generatePDFDiff hash localBlob remoteData ts filename =
        generatePDFDiff hash localBlob2 remoteData2 ts filename) := by
  refine ⟨?_, ?_, ?_⟩
  · simp only [generatePDFDiff]
    exact strContains_left _ _ _ (strContains_left _ _ _ (strContains_left _ _ _
      (strContains_right _ _ _ (strContains_self _))))
  · simp only [generatePDFDiff]
    exact strContains_left _ _ _ (strContains_right _ _ _ (strContains_self _))
  · intro h1 h2
    simp only [generatePDFDiff, h1, h2]

/-- C8 witness: both fingerprints occur in a concrete opaque report. -/
theorem C8_opaque_fingerprints_witness :
    strContains (id "x") (generatePDFDiff id "x" "y" "t" "f") ∧
    strContains (id "y") (generatePDFDiff id "x" "y" "t" "f") := by
  have h := C8_opaque_fingerprints id "x" "y" "x" "y" "t" "f" (by decide)
  exact ⟨h.1, h.2.1⟩

/-- C3 counterexample: at local EXIF `Success "GPS: 45.0"` and remote EXIF
`Failure "decode error"`, the image report carries the label with a capital
L (`Local present, remote extraction failed`); the lower-case label text
the claim quotes occurs nowhere in the report. -/
theorem C3_counterexample :
    ¬ strContains "local present, remote extraction failed"
      (generateImageDiff "aa" "bb" "GPS: 45.0" "" "" "" none (some "decode error")
        none none "T" "f.png") := by
  decide

/-- C3 amended: each channel section of the media reconciler is non-empty
for every one of the four success/failure combinations, and when the local
extraction succeeds with value `lv` and the remote extraction fails with
`cause`, the section — and hence the whole report — contains the label
`Local present, remote extraction failed` (capital L), the full local
value, and the remote failure cause. -/
theorem C3_reconciler_amended (lv rv cause : String) (le re : Option String)
    (localHash remoteHash lo ro ts fn : String) (loe roe : Option String) :
    exifSection lv rv le re ≠ "" ∧
    ocrSection lv rv le re ≠ "" ∧
    strContains "Local present, remote extraction failed" (exifSection lv rv none (some cause)) ∧
    strContains lv (exifSection lv rv none (some cause)) ∧
    strContains cause (exifSection lv rv none (some cause)) ∧
    strContains "Local present, remote extraction failed" (ocrSection lv rv none (some cause)) ∧
    strContains lv (ocrSection lv rv none (some cause)) ∧
    strContains cause (ocrSection lv rv none (some cause)) ∧
    strContains lv
      (generateImageDiff localHash remoteHash lv rv lo ro none (some cause) loe roe ts fn) ∧
    strContains "Local present, remote extraction failed"
      (generateImageDiff localHash remoteHash lv rv lo ro none (some cause) loe roe ts fn) := by
  have hexif_ne : exifSection lv rv le re ≠ "" := by
    cases le with
    | none =>
      cases re with
      | none =>
        simp only [exifSection]
        by_cases hv : lv ≠ rv
        · rw [if_pos hv]
          exact strAppend_ne_right _ _ (strAppend_ne_left _ _ (by decide))
        · rw [if_neg hv]
          exact strAppend_ne_right _ _ (by decide)
      | some e =>
        simp only [exifSection]
        apply strAppend_ne_right
        apply strAppend_ne_left
        apply strAppend_ne_left
        decide
    | some e =>
      simp only [exifSection]
      apply strAppend_ne_left
      apply strAppend_ne_left
      apply strAppend_ne_left
      apply strAppend_ne_left
      decide
  have hocr_ne : ocrSection lv rv le re ≠ "" := by
    cases le with
    | none =>
      cases re with
      | none =>
        simp only [ocrSection]
        by_cases hv : lv ≠ rv
        · rw [if_pos hv]
          exact strAppend_ne_right _ _ (strAppend_ne_left _ _ (by decide))
        · rw [if_neg hv]
          exact strAppend_ne_right _ _ (by decide)
      | some e =>
        simp only [ocrSection]
        apply strAppend_ne_right
        apply strAppend_ne_left
        apply strAppend_ne_left
        decide
    | some e =>
      simp only [ocrSection]
      apply strAppend_ne_left
      apply strAppend_ne_left
      apply strAppend_ne_left
      apply strAppend_ne_left
      decide
  have hexif_lbl : strContains "Local present, remote extraction failed"
      (exifSection lv rv none (some cause)) := by
    simp only [exifSection]
    exact strContains_right _ _ _ (strContains_left _ _ _ (strContains_left _ _ _ (by decide)))
  have hexif_lv : strContains lv (exifSection lv rv none (some cause)) := by
    simp only [exifSection]
    exact strContains_right _ _ _ (strContains_left _ _ _
      (strContains_right _ _ _ (strContains_self _)))
  have hexif_cause : strContains cause (exifSection lv rv none (some cause)) := by
    simp only [exifSection]
    exact strContains_left _ _ _ (strContains_right _ _ _ (strContains_left _ _ _
      (strContains_right _ _ _ (strContains_self _))))
  have hocr_lbl : strContains "Local present, remote extraction failed"
      (ocrSection lv rv none (some cause)) := by
    simp only [ocrSection]
    exact strContains_right _ _ _ (strContains_left _ _ _ (strContains_left _ _ _ (by decide)))
  have hocr_lv : strContains lv (ocrSection lv rv none (some cause)) := by
    simp only [ocrSection]
    exact strContains_right _ _ _ (strContains_left _ _ _
      (strContains_right _ _ _ (strContains_self _)))
  have hocr_cause : strContains cause (ocrSection lv rv none (some cause)) := by
    simp only [ocrSection]
    exact strContains_left _ _ _ (strContains_right _ _ _ (strContains_left _ _ _
      (strContains_right _ _ _ (strContains_self _))))
  have hrep : ∀ sub : String, strContains sub (exifSection lv rv none (some cause)) →
      strContains sub
        (generateImageDiff localHash remoteHash lv rv lo ro none (some cause) loe roe ts fn) := by
    intro sub hsub
    simp only [generateImageDiff]
    exact strContains_right _ _ _ (strContains_right _ _ _ (strContains_left _ _ _ hsub))
  exact ⟨hexif_ne, hocr_ne, hexif_lbl, hexif_lv, hexif_cause, hocr_lbl, hocr_lv, hocr_cause,
    hrep lv hexif_lv, hrep _ hexif_lbl⟩

/-- C1: in `runCycle`, an item whose fetch fails or whose remote returns a
non-success HTTP status contributes nothing to `unifiedBuilder`: the
`continue` at lines 247/262/271/278 skips the `WriteString(rawHash)` at
line 315, although `rawHash` was just set to the zero sentinel.  For a
cycle with a single item answered by HTTP 404, the concatenation fed to
the final digest is the empty string, while the spec's concatenation is
the 64-zero sentinel — so the aggregate fingerprint hashes a different
string than the claim requires. -/
theorem C1_aggregate_drops_failed_item (hash : String → String) :
    cycleConcat hash [(ItemFetch.httpResponse 404 none, none)] = "" ∧
    specCycleConcat hash [(ItemFetch.httpResponse 404 none, none)] = zeroHash ∧
    zeroHash ≠ "" ∧
    cycleConcat hash [(ItemFetch.httpResponse 404 none, none)] ≠
      specCycleConcat hash [(ItemFetch.httpResponse 404 none, none)] := by
  have h1 : cycleConcat hash [(ItemFetch.httpResponse 404 none, none)] = "" := rfl
  have h2 : specCycleConcat hash [(ItemFetch.httpResponse 404 none, none)] = zeroHash := by
    show strJoin [zeroHash] = zeroHash
    show zeroHash ++ "" = zeroHash
    exact strAppend_empty zeroHash
  refine ⟨h1, h2, by decide, ?_⟩
  rw [h1, h2]
  decide
